import Mathlib

/-!
Verification of the export pipeline in src/sonar-export.py.

The script is shallowly embedded: Python/JSON values become the inductive
type `Value`, dates become natural numbers counting days, the network is an
oracle function from (window, page) to a page result, and file contents are
explicit lists of CSV lines.  Every definition below is translated from the
source file; comments cite the corresponding lines.
-/

namespace SonarExport

/-! ## Python / JSON values -/

/-- A Python value as it appears in the decoded JSON payloads. -/
inductive Value where
  | null : Value
  | bool : Bool → Value
  | int : Int → Value
  | str : String → Value
  | list : List Value → Value
  | obj : List (String × Value) → Value

/-- A raw issue record: the dict for one issue (`RawRecord`). -/
def Issue := List (String × Value)

/-- A flattened row: the dict returned by `flatten_issue`. -/
def FlatRow := List (String × Value)

/-- Association-list lookup, i.e. `d[k]` when the key is present. -/
def lookupV (d : List (String × Value)) (k : String) : Option Value :=
  (d.find? fun p => p.1 == k).map Prod.snd

/-- Python `d.get(k, dflt)` on a dict. -/
def pyGet (d : List (String × Value)) (k : String) (dflt : Value) : Value :=
  (lookupV d k).getD dflt

/-- Is the value a Python dict?  (`isinstance(x, dict)`) -/
def Value.isObj : Value → Bool
  | .obj _ => true
  | _ => false

/-- Python truthiness (`if impacts:`). -/
def pyTruthy : Value → Bool
  | .null => false
  | .bool b => b
  | .int n => n ≠ 0
  | .str s => s ≠ ""
  | .list xs => !xs.isEmpty
  | .obj kvs => !kvs.isEmpty

def isStrV : Value → Bool
  | .str _ => true
  | _ => false

def asStr : Value → String
  | .str s => s
  | _ => ""

/-- Python `sep.join(x)`: succeeds on a string (joining its characters), a
list of strings, or a dict (joining its keys); raises `TypeError` otherwise,
modelled as `Except.error`. -/
def pyJoin (sep : String) : Value → Except String String
  | .str s => .ok (String.intercalate sep (s.data.map String.singleton))
  | .list xs =>
    if xs.all isStrV then .ok (String.intercalate sep (xs.map asStr))
    else .error "TypeError: join of non-string element"
  | .obj kvs => .ok (String.intercalate sep (kvs.map Prod.fst))
  | _ => .error "TypeError: can only join an iterable"

/-- Python `len(x)`: defined on strings, lists and dicts, `TypeError`
otherwise. -/
def pyLen : Value → Except String Int
  | .str s => .ok s.length
  | .list xs => .ok xs.length
  | .obj kvs => .ok kvs.length
  | _ => .error "TypeError: object has no len"

/-- Python iteration (`for imp in impacts`): a string yields its characters,
a list its elements, a dict its keys; other values raise `TypeError`. -/
def pyIter : Value → Except String (List Value)
  | .str s => .ok (s.data.map fun c => Value.str (String.singleton c))
  | .list xs => .ok xs
  | .obj kvs => .ok (kvs.map fun p => Value.str p.1)
  | _ => .error "TypeError: not iterable"

/-- Python `imp.get(k, dflt)`: only dicts have `.get`; anything else raises
`AttributeError`. -/
def pyDictGet (v : Value) (k : String) (dflt : Value) : Except String Value :=
  match v with
  | .obj kvs => .ok (pyGet kvs k dflt)
  | _ => .error "AttributeError: object has no attribute get"

/-- `text_range.get(k, dflt)` after the `isinstance(text_range, dict)`
guard: only ever applied to a dict, other cases return the default. -/
def pyObjGetD (v : Value) (k : String) (dflt : Value) : Value :=
  match v with
  | .obj kvs => pyGet kvs k dflt
  | _ => dflt

/-- Python `str(x)` as used inside the f-string rendering impacts.  For the
non-scalar cases (never produced by well-shaped records) a placeholder
stands in for Python repr text, which no claim depends on. -/
def pyStr : Value → String
  | .null => "None"
  | .bool true => "True"
  | .bool false => "False"
  | .int n => toString n
  | .str s => s
  | .list _ => "<list>"
  | .obj _ => "<dict>"

/-! ## flatten_issue (src/sonar-export.py lines 161-210) -/

/-- `f"{imp.get('softwareQuality', '')}:{imp.get('severity', '')}"` for one
element of the impacts iteration. -/
def impactPair (imp : Value) : Except String String :=
  match pyDictGet imp "softwareQuality" (Value.str "") with
  | .error e => .error e
  | .ok q =>
    match pyDictGet imp "severity" (Value.str "") with
    | .error e => .error e
    | .ok sv => .ok (pyStr q ++ ":" ++ pyStr sv)

/-- The list comprehension of line 171, evaluated left to right with the
first exception propagating. -/
def mapImpacts : List Value → Except String (List String)
  | [] => .ok []
  | x :: xs =>
    match impactPair x, mapImpacts xs with
    | .ok s, .ok ss => .ok (s :: ss)
    | .error e, _ => .error e
    | .ok _, .error e => .error e

/-- Line 171: `'; '.join([f"{imp.get('softwareQuality','')}:{imp.get('severity','')}"
for imp in impacts]) if impacts else ''`. -/
def impactsStr (impacts : Value) : Except String String :=
  if pyTruthy impacts then
    match pyIter impacts with
    | .error e => .error e
    | .ok items =>
      match mapImpacts items with
      | .error e => .error e
      | .ok parts => .ok (String.intercalate "; " parts)
  else .ok ""

/-- The dict literal returned by `flatten_issue` (lines 174-210), with the
fallible sub-computations already evaluated and passed in. -/
def buildRow (issue : Issue) (text_range : Value) (impacts_str tags transitions actions : String)
    (comments flows : Int) : FlatRow :=
  [ ("key", pyGet issue "key" (Value.str "")),
    ("rule", pyGet issue "rule" (Value.str "")),
    ("severity", pyGet issue "severity" (Value.str "")),
    ("component", pyGet issue "component" (Value.str "")),
    ("componentLongName", pyGet issue "componentLongName" (Value.str "")),
    ("project", pyGet issue "project" (Value.str "")),
    ("subProject", pyGet issue "subProject" (Value.str "")),
    ("line", pyGet issue "line" (Value.str "")),
    ("hash", pyGet issue "hash" (Value.str "")),
    ("startLine", if text_range.isObj then pyObjGetD text_range "startLine" (Value.str "") else Value.str ""),
    ("endLine", if text_range.isObj then pyObjGetD text_range "endLine" (Value.str "") else Value.str ""),
    ("startOffset", if text_range.isObj then pyObjGetD text_range "startOffset" (Value.str "") else Value.str ""),
    ("endOffset", if text_range.isObj then pyObjGetD text_range "endOffset" (Value.str "") else Value.str ""),
    ("message", pyGet issue "message" (Value.str "")),
    ("author", pyGet issue "author" (Value.str "")),
    ("assignee", pyGet issue "assignee" (Value.str "")),
    ("status", pyGet issue "status" (Value.str "")),
    ("resolution", pyGet issue "resolution" (Value.str "")),
    ("type", pyGet issue "type" (Value.str "")),
    ("tags", Value.str tags),
    ("creationDate", pyGet issue "creationDate" (Value.str "")),
    ("updateDate", pyGet issue "updateDate" (Value.str "")),
    ("closeDate", pyGet issue "closeDate" (Value.str "")),
    ("effort", pyGet issue "effort" (Value.str "")),
    ("debt", pyGet issue "debt" (Value.str "")),
    ("transitions", Value.str transitions),
    ("actions", Value.str actions),
    ("comments", Value.int comments),
    ("flows", Value.int flows),
    ("organization", pyGet issue "organization" (Value.str "")),
    ("cleanCodeAttribute", pyGet issue "cleanCodeAttribute" (Value.str "")),
    ("cleanCodeAttributeCategory", pyGet issue "cleanCodeAttributeCategory" (Value.str "")),
    ("impacts", Value.str impacts_str),
    ("issueStatus", pyGet issue "issueStatus" (Value.str "")),
    ("projectName", pyGet issue "projectName" (Value.str "")) ]

/-- `flatten_issue` (lines 161-210).  The fallible Python operations
(`join`, `len`, iteration over impacts) are evaluated in source order;
an exception is an `Except.error`. -/
def flatten_issue (issue : Issue) : Except String FlatRow :=
  let text_range := pyGet issue "textRange" (Value.obj [])
  match impactsStr (pyGet issue "impacts" (Value.list [])) with
  | .error e => .error e
  | .ok impacts_str =>
  match pyJoin "," (pyGet issue "tags" (Value.list [])) with
  | .error e => .error e
  | .ok tags =>
  match pyJoin "," (pyGet issue "transitions" (Value.list [])) with
  | .error e => .error e
  | .ok transitions =>
  match pyJoin "," (pyGet issue "actions" (Value.list [])) with
  | .error e => .error e
  | .ok actions =>
  match pyLen (pyGet issue "comments" (Value.list [])) with
  | .error e => .error e
  | .ok comments =>
  match pyLen (pyGet issue "flows" (Value.list [])) with
  | .error e => .error e
  | .ok flows =>
    .ok (buildRow issue text_range impacts_str tags transitions actions comments flows)

/-- The fixed column list of the flattened schema, in source order. -/
def flatColumns : List String :=
  [ "key", "rule", "severity", "component", "componentLongName", "project",
    "subProject", "line", "hash", "startLine", "endLine", "startOffset",
    "endOffset", "message", "author", "assignee", "status", "resolution",
    "type", "tags", "creationDate", "updateDate", "closeDate", "effort",
    "debt", "transitions", "actions", "comments", "flows", "organization",
    "cleanCodeAttribute", "cleanCodeAttributeCategory", "impacts",
    "issueStatus", "projectName" ]

/-- The columns copied verbatim with an empty-string default. -/
def scalarColumns : List String :=
  [ "key", "rule", "severity", "component", "componentLongName", "project",
    "subProject", "line", "hash", "message", "author", "assignee", "status",
    "resolution", "type", "creationDate", "updateDate", "closeDate",
    "effort", "debt", "organization", "cleanCodeAttribute",
    "cleanCodeAttributeCategory", "issueStatus", "projectName" ]

/-- A value `sep.join` accepts without raising. -/
def joinable : Value → Bool
  | .str _ => true
  | .list xs => xs.all isStrV
  | .obj _ => true
  | _ => false

/-- A value `len` accepts without raising. -/
def sized : Value → Bool
  | .str _ => true
  | .list _ => true
  | .obj _ => true
  | _ => false

/-- An impacts value the comprehension of line 171 accepts: either falsy
(skipped entirely) or a list of dicts. -/
def impactsOk (v : Value) : Bool :=
  !pyTruthy v ||
    (match v with
     | .list xs => xs.all Value.isObj
     | _ => false)

/-- Shape assumptions under which `flatten_issue` cannot raise. -/
def wellShaped (issue : Issue) : Bool :=
  joinable (pyGet issue "tags" (Value.list [])) &&
  joinable (pyGet issue "transitions" (Value.list [])) &&
  joinable (pyGet issue "actions" (Value.list [])) &&
  sized (pyGet issue "comments" (Value.list [])) &&
  sized (pyGet issue "flows" (Value.list [])) &&
  impactsOk (pyGet issue "impacts" (Value.list []))

/-! ## Session retry policy (create_session_with_retries, lines 143-159)

urllib3 `Retry(total=3, backoff_factor=1, status_forcelist=[...],
allowed_methods=["GET"])`: `total` counts *retries*, i.e. the initial
attempt is followed by up to `total` further attempts.  Per urllib3's
`Retry.get_backoff_time`, the sleep before a retry is
`backoff_factor * 2^(n-1)` for the n-th consecutive error, except that
the first retry sleeps 0 (`if consecutive_errors_len <= 1: return 0`),
giving sleeps 0s, 2s, 4s for factor 1 — the source comment at line 149
("Wait 1, 2, 4 seconds between retries") overstates the first delay.  A
response whose status is not in the forcelist is delivered to the caller;
once the retries are exhausted the session raises instead. -/

def statusForcelist : List Nat := [429, 500, 502, 503, 504]

def retryTotal : Nat := 3

def backoffFactor : Nat := 1

/-- Outcome of one wire-level attempt of a page request. -/
inductive Attempt where
  | resp : Nat → Attempt
  | timeoutA : Attempt
  | connFailA : Attempt
deriving DecidableEq

/-- Whether urllib3 retries this attempt outcome: connection-level failures
always, responses only when the status is in the forcelist. -/
def Attempt.isRetryable : Attempt → Bool
  | .resp s => statusForcelist.contains s
  | .timeoutA => true
  | .connFailA => true

/-- urllib3 `Retry.get_backoff_time`: zero before the first retry
(`consecutive_errors_len <= 1`), `backoff_factor * 2^(n-1)` seconds
before the n-th retry otherwise. -/
def getBackoffTime (consecutiveErrors : Nat) : Nat :=
  if consecutiveErrors ≤ 1 then 0
  else backoffFactor * 2 ^ (consecutiveErrors - 1)

/-- The observable behaviour of one `session.get`: how many wire attempts
were made, which backoff sleeps happened, and either the delivered
response (`some a`) or an exception after exhaustion (`none`). -/
structure SessionResult where
  attempts : Nat
  delays : List Nat
  delivered : Option Attempt
deriving DecidableEq

/-- The retry loop: `retriesLeft` retries remain, `errs` attempts have
already failed, the oracle gives the outcome of the i-th wire attempt. -/
def sessionGetAux (oracle : Nat → Attempt) : Nat → Nat → Nat → SessionResult
  | 0, _, i =>
    if (oracle i).isRetryable then ⟨1, [], none⟩
    else ⟨1, [], some (oracle i)⟩
  | retriesLeft + 1, errs, i =>
    if (oracle i).isRetryable then
      let rest := sessionGetAux oracle retriesLeft (errs + 1) (i + 1)
      ⟨1 + rest.attempts, getBackoffTime (errs + 1) :: rest.delays, rest.delivered⟩
    else ⟨1, [], some (oracle i)⟩

/-- `session.get` with the retry configuration of
`create_session_with_retries`. -/
def sessionGet (oracle : Nat → Attempt) : SessionResult :=
  sessionGetAux oracle retryTotal 0 0

/-! ## Window planning (the date loop of export_single_project) -/

/-- `delta = timedelta(days=30)` (line 391). -/
def maxSpan : Nat := 30

/-- The date-window loop of lines 417-420/494: emit
`[cursor, min(cursor+30, end))` and advance the cursor, while
`cursor < end`.  Dates are counted in days; the fuel argument only bounds
the recursion and `e - s` steps always suffice. -/
def planWindowsAux : Nat → Nat → Nat → List (Nat × Nat)
  | 0, _, _ => []
  | fuel + 1, s, e =>
    if s < e then
      (s, min (s + maxSpan) e) :: planWindowsAux fuel (min (s + maxSpan) e) e
    else []

def planWindows (s e : Nat) : List (Nat × Nat) :=
  planWindowsAux (e - s) s e

/-! ## The export loop of export_single_project (lines 336-516) -/

def pageSize : Nat := 500

def chunkSize : Nat := 5000

/-- One line of the output CSV file. -/
inductive Line where
  | header : Line
  | row : FlatRow → Line

/-- `write_mode`: `'w'` truncates and writes the header, `'a'` appends. -/
inductive Mode where
  | w : Mode
  | a : Mode
deriving DecidableEq

/-- What one `session.get` of a page looks like to the page loop, after the
retry layer: a parsed 200 response with its issues list, a 200 response
whose JSON failed to parse, a non-200 status delivered to the caller, or a
raised exception (timeout, connection error, retries exhausted). -/
inductive PageResult where
  | ok : List Issue → PageResult
  | badJson : PageResult
  | httpError : Nat → PageResult
  | timeout : PageResult
  | connError : PageResult
  | raised : PageResult

/-- Line 222: `[flatten_issue(issue) for issue in chunk_data]` — flatten in
order, the first exception propagating. -/
def flattenAll : List Issue → Except String (List FlatRow)
  | [] => .ok []
  | i :: rest =>
    match flatten_issue i, flattenAll rest with
    | .ok r, .ok rs => .ok (r :: rs)
    | .error e, _ => .error e
    | .ok _, .error e => .error e

/-- `write_chunk_to_csv` (lines 212-225): flatten every issue of the chunk
(an exception propagates), then write the rows; mode `'w'` creates the file
with a header row, mode `'a'` appends without one. -/
def writeChunk (file : Option (List Line)) (mode : Mode) (issues : List Issue) :
    Except String (List Line) :=
  match flattenAll issues with
  | .error e => .error e
  | .ok rows =>
    match mode with
    | .w => .ok (Line.header :: rows.map Line.row)
    | .a => .ok (file.getD [] ++ rows.map Line.row)

/-- The mutable state of `export_single_project` while the window loop
runs: the `all_issues` buffer, the write mode, the CSV file on disk
(`none` = not created), `total_issues_count`, plus two traces used to
state properties — every issue fetched in order, and every (window-start,
page) request issued. -/
structure ExportState where
  buffer : List Issue
  mode : Mode
  fileContents : Option (List Line)
  total : Nat
  fetched : List Issue
  requests : List (Nat × Nat)

def initState : ExportState :=
  ⟨[], Mode.w, none, 0, [], []⟩

/-- The inner `while True` page loop (lines 441-492) for the window
`[ws, we)`, starting at page `p`.  Any non-ok result, a JSON error among
them, executes `break`; a chunk-write exception is caught by the generic
handler and also breaks.  `none` means the fuel bound was hit (the real
loop would still be requesting pages). -/
def pageLoop (server : Nat → Nat → Nat → PageResult) (ws we : Nat) :
    Nat → Nat → ExportState → Option ExportState
  | 0, _, _ => none
  | fuel + 1, p, st =>
    let st1 : ExportState := { st with requests := st.requests ++ [(ws, p)] }
    match server ws we p with
    | .ok issues =>
      let st2 : ExportState :=
        { st1 with buffer := st1.buffer ++ issues,
                   total := st1.total + issues.length,
                   fetched := st1.fetched ++ issues }
      if chunkSize ≤ st2.buffer.length then
        match writeChunk st2.fileContents st2.mode st2.buffer with
        | .error _ => some st2
        | .ok f =>
          let st3 : ExportState :=
            { st2 with buffer := [], mode := Mode.a, fileContents := some f }
          if issues.length < pageSize then some st3
          else pageLoop server ws we fuel (p + 1) st3
      else
        if issues.length < pageSize then some st2
        else pageLoop server ws we fuel (p + 1) st2
    | _ => some st1

/-- The outer window loop (lines 417-494): each window runs the page loop
from page 1; errors in one window never stop the next window. -/
def windowsLoop (server : Nat → Nat → Nat → PageResult) (fuel : Nat) :
    List (Nat × Nat) → ExportState → Option ExportState
  | [], st => some st
  | (ws, we) :: rest, st =>
    match pageLoop server ws we fuel 1 st with
    | none => none
    | some st1 => windowsLoop server fuel rest st1

inductive Status where
  | success : Status
  | failed : Status
deriving DecidableEq

/-- The watermark state written by `save_export_info`
(lines 125-141): boundary date and issue count. -/
structure Watermark where
  lastExportDate : Nat
  lastExportTimestamp : Nat
  issueCount : Nat

/-- Line 369-378: in incremental mode a stored state overrides the
configured start date. -/
def effectiveStart (incremental : Bool) (lastInfo : Option Watermark)
    (configured : Nat) : Nat :=
  if incremental then
    match lastInfo with
    | some w => w.lastExportDate
    | none => configured
  else configured

/-- Lines 502-504: the watermark is written when
`total_issues_count > 0 and base_args.incremental`; it stores the full
range end date and the total count. -/
def watermarkAfter (incremental : Bool) (endDate total : Nat) : Option (Nat × Nat) :=
  if 0 < total ∧ incremental = true then some (endDate, total) else none

/-- The observable result of one `export_single_project` call: the returned
status and count, the CSV contents on disk, the watermark written (if
any), and the fetch/request traces. -/
structure Outcome where
  status : Status
  count : Nat
  fileContents : Option (List Line)
  savedWatermark : Option (Nat × Nat)
  fetched : List Issue
  requests : List (Nat × Nat)

/-- `export_single_project` (lines 336-516): resolve the effective start,
validate `start < end`, run the window loop over `planWindows`, flush the
remaining buffer (an exception here reaches the outer handler and yields a
failed result), then save the watermark.  The Python failed dict carries
no count; the model exposes the internal running total. -/
def exportRun (incremental : Bool) (lastInfo : Option Watermark)
    (configuredStart endDate : Nat) (server : Nat → Nat → Nat → PageResult)
    (fuel : Nat) : Option Outcome :=
  let startDate := effectiveStart incremental lastInfo configuredStart
  if startDate < endDate then
    match windowsLoop server fuel (planWindows startDate endDate) initState with
    | none => none
    | some st =>
      if st.buffer.isEmpty then
        some { status := Status.success, count := st.total,
               fileContents := st.fileContents,
               savedWatermark := watermarkAfter incremental endDate st.total,
               fetched := st.fetched, requests := st.requests }
      else
        match writeChunk st.fileContents st.mode st.buffer with
        | .error _ =>
          some { status := Status.failed, count := st.total,
                 fileContents := st.fileContents, savedWatermark := none,
                 fetched := st.fetched, requests := st.requests }
        | .ok f =>
          some { status := Status.success, count := st.total,
                 fileContents := some f,
                 savedWatermark := watermarkAfter incremental endDate st.total,
                 fetched := st.fetched, requests := st.requests }
  else
    some { status := Status.failed, count := 0, fileContents := none,
           savedWatermark := none, fetched := [], requests := [] }

/-! ## Watermark loading (get_last_export_info, lines 109-123) -/

/-- The state file on disk for one project key. -/
inductive StateFile where
  | missing : StateFile
  | unreadable : StateFile
  | valid : Watermark → StateFile

/-- `get_last_export_info`: a missing file and a file whose read or JSON
parse raises both return `None`. -/
def get_last_export_info : StateFile → Option Watermark
  | .missing => none
  | .unreadable => none
  | .valid w => some w

/-! ## Multi-project orchestration (export_multiple_projects, lines 518-587) -/

/-- The per-project result dict as used by the summary loop. -/
inductive SingleOutcome where
  | success : Nat → SingleOutcome
  | failedO : String → SingleOutcome

def SingleOutcome.isSuccess : SingleOutcome → Bool
  | .success _ => true
  | .failedO _ => false

def SingleOutcome.countOrZero : SingleOutcome → Nat
  | .success c => c
  | .failedO _ => 0

/-- What calling `export_single_project` for one key does: returns a result
dict, or raises. -/
inductive ProjResult where
  | outcome : SingleOutcome → ProjResult
  | exception : String → ProjResult

/-- Lines 541-546: a raised exception is caught and recorded as a failed
result for that project. -/
def resultOf : ProjResult → SingleOutcome
  | .outcome o => o
  | .exception m => .failedO m

/-- `results[project_key] = result`: Python dict assignment, overwriting in
place if the key exists, appending otherwise. -/
def dictInsert (d : List (String × SingleOutcome)) (k : String)
    (v : SingleOutcome) : List (String × SingleOutcome) :=
  if d.any (fun p => p.1 == k) then
    d.map (fun p => if p.1 == k then (k, v) else p)
  else d ++ [(k, v)]

/-- The orchestration loop state: the results dict plus the trace of
projects actually processed, in order. -/
structure MultiState where
  results : List (String × SingleOutcome)
  calls : List String

/-- The `for i, project_key in enumerate(project_keys, 1)` loop of
lines 532-546. -/
def exportProjectsLoop (runner : String → ProjResult) :
    List String → MultiState → MultiState
  | [], st => st
  | k :: ks, st =>
    exportProjectsLoop runner ks
      { results := dictInsert st.results k (resultOf (runner k)),
        calls := st.calls ++ [k] }

/-- The summary loop of lines 553-564: count successes and failures, sum
the counts of the successful projects only. -/
def summarize (results : List (String × SingleOutcome)) : Nat × Nat × Nat :=
  results.foldl
    (fun acc p =>
      match p.2 with
      | .success c => (acc.1 + 1, acc.2.1, acc.2.2 + c)
      | .failedO _ => (acc.1, acc.2.1 + 1, acc.2.2))
    (0, 0, 0)

/-! ## Specification predicates -/

/-- The windows chain contiguously from `c` to `e`: each starts where the
previous ended, is nonempty, spans at most `maxSpan` days, and the last
ends exactly at `e`. -/
def chainFrom : Nat → Nat → List (Nat × Nat) → Prop
  | c, e, [] => c = e
  | c, e, w :: ws => w.1 = c ∧ w.1 < w.2 ∧ w.2 - w.1 ≤ maxSpan ∧ chainFrom w.2 e ws

/-- Invariant for the zero-record analysis: the buffer never holds more
issues than have been counted, and while the count is zero no file has
been created. -/
def BufBound (st : ExportState) : Prop :=
  st.buffer.length ≤ st.total ∧ (st.total = 0 → st.fileContents = none)

/-- Invariant of the chunked-writing machinery: the running total counts
the fetched issues; the flattened file contents plus the flattened buffer
always form one header line followed by the flattened fetched issues in
order (before the first flush the file does not exist and the buffer holds
everything). -/
def WInv (st : ExportState) : Prop :=
  st.total = st.fetched.length ∧
  ∃ rsA rsB, flattenAll st.fetched = Except.ok rsA ∧
    flattenAll st.buffer = Except.ok rsB ∧
    ((st.mode = Mode.w ∧ st.fileContents = none ∧ st.buffer = st.fetched) ∨
     (st.mode = Mode.a ∧ ∃ l, st.fileContents = some l ∧
        l ++ rsB.map Line.row = Line.header :: rsA.map Line.row))

/-! ## Window planning: the windows partition the range -/

theorem chainFrom_nil {c e : Nat} : chainFrom c e [] ↔ c = e := Iff.rfl

theorem chainFrom_cons {c e : Nat} {w : Nat × Nat} {ws : List (Nat × Nat)} :
    chainFrom c e (w :: ws) ↔
      (w.1 = c ∧ w.1 < w.2 ∧ w.2 - w.1 ≤ maxSpan ∧ chainFrom w.2 e ws) :=
  Iff.rfl

theorem planWindowsAux_chain :
    ∀ (fuel s e : Nat), e - s ≤ fuel → s ≤ e →
      chainFrom s e (planWindowsAux fuel s e) := by
  intro fuel
  induction fuel with
  | zero =>
    intro s e h1 h2
    have hse : s = e := by omega
    simp [planWindowsAux, chainFrom, hse]
  | succ n ih =>
    intro s e h1 h2
    have hms : maxSpan = 30 := rfl
    by_cases hse : s < e
    · have hnext : s < min (s + maxSpan) e ∧ min (s + maxSpan) e ≤ e ∧
          min (s + maxSpan) e - s ≤ maxSpan ∧ e - min (s + maxSpan) e ≤ n := by
        omega
      simp only [planWindowsAux, if_pos hse]
      rw [chainFrom_cons]
      exact ⟨rfl, hnext.1, hnext.2.2.1, ih _ _ hnext.2.2.2 hnext.2.1⟩
    · have hse2 : s = e := by omega
      simp only [planWindowsAux, if_neg hse]
      rw [chainFrom_nil]
      exact hse2

theorem chainFrom_le {e : Nat} :
    ∀ {ws : List (Nat × Nat)} {c : Nat}, chainFrom c e ws → c ≤ e := by
  intro ws
  induction ws with
  | nil => intro c h; exact Nat.le_of_eq h
  | cons w rest ih =>
    intro c h
    obtain ⟨h1, h2, _, h4⟩ := h
    have := ih h4
    omega

theorem chainFrom_cover {e : Nat} :
    ∀ {ws : List (Nat × Nat)} {c : Nat}, chainFrom c e ws →
      ∀ d : Nat, (∃ w ∈ ws, w.1 ≤ d ∧ d < w.2) ↔ (c ≤ d ∧ d < e) := by
  intro ws
  induction ws with
  | nil =>
    intro c h d
    have hce : c = e := h
    simp only [List.not_mem_nil, false_and, exists_false, false_iff]
    omega
  | cons w rest ih =>
    intro c h d
    obtain ⟨h1, h2, _, h4⟩ := h
    have hrest := ih h4 d
    have hle : w.2 ≤ e := chainFrom_le h4
    simp only [List.mem_cons, exists_eq_or_imp] at *
    constructor
    · rintro (hw | hw)
      · omega
      · have := hrest.mp hw; omega
    · intro hd
      by_cases hdw : d < w.2
      · exact Or.inl ⟨by omega, hdw⟩
      · exact Or.inr (hrest.mpr (by omega))

theorem chainFrom_bounds {e : Nat} :
    ∀ {ws : List (Nat × Nat)} {c : Nat}, chainFrom c e ws →
      ∀ w ∈ ws, c ≤ w.1 ∧ w.1 < w.2 ∧ w.2 - w.1 ≤ maxSpan := by
  intro ws
  induction ws with
  | nil => intro c _ w hw; exact absurd hw (List.not_mem_nil w)
  | cons u rest ih =>
    intro c h w hw
    obtain ⟨h1, h2, h3, h4⟩ := h
    rcases List.mem_cons.mp hw with rfl | hw2
    · omega
    · have := ih h4 w hw2
      omega

theorem chainFrom_pairwise {e : Nat} :
    ∀ {ws : List (Nat × Nat)} {c : Nat}, chainFrom c e ws →
      List.Pairwise (fun w1 w2 => w1.2 ≤ w2.1) ws := by
  intro ws
  induction ws with
  | nil => intro c _; exact List.Pairwise.nil
  | cons u rest ih =>
    intro c h
    obtain ⟨h1, h2, h3, h4⟩ := h
    exact List.Pairwise.cons (fun w hw => ((chainFrom_bounds h4) w hw).1) (ih h4)

/-- C3: for every valid range (start strictly before end) the planned
windows chain contiguously from start to end (strictly increasing, no gap,
no overlap, last ending exactly at the range end), each window is nonempty
and spans at most 30 days, their union is exactly the half-open input
range, and they are pairwise non-overlapping in increasing order. -/
theorem planWindows_partition (s e : Nat) (h : s < e) :
    chainFrom s e (planWindows s e) ∧
    (∀ d : Nat, (∃ w ∈ planWindows s e, w.1 ≤ d ∧ d < w.2) ↔ (s ≤ d ∧ d < e)) ∧
    (∀ w ∈ planWindows s e, w.1 < w.2 ∧ w.2 - w.1 ≤ maxSpan) ∧
    List.Pairwise (fun w1 w2 => w1.2 ≤ w2.1) (planWindows s e) := by
  have hc : chainFrom s e (planWindows s e) :=
    planWindowsAux_chain _ s e (Nat.le_refl _) (Nat.le_of_lt h)
  exact ⟨hc, chainFrom_cover hc,
    fun w hw => (chainFrom_bounds hc w hw).2, chainFrom_pairwise hc⟩

/-! ## Retry policy -/

/-- C4 counterexample: a page request whose every wire attempt returns
status 503 is attempted 4 times in total (1 initial + `total = 3`
retries), not 3, before the session raises; and the backoff sleeps are
0s, 2s, 4s (urllib3 sleeps 0 before the first retry), not 1s, 2s, 4s. -/
theorem retry_attempt_count_cex :
    sessionGet (fun _ => Attempt.resp 503) =
      { attempts := 4, delays := [0, 2, 4], delivered := none } := by
  decide

/-- C4 amended: when every wire attempt of a page request fails with a
transient outcome (timeout, connection failure, or a status in the
forcelist 429/500/502/503/504), the session makes exactly 4 attempts in
total — the initial attempt plus the configured 3 retries — sleeping
0s, 2s and 4s before the retries, and then raises, so the window fetch
fails rather than silently skipping forward. -/
theorem retry_four_attempts (oracle : Nat → Attempt)
    (h : ∀ i, (oracle i).isRetryable = true) :
    sessionGet oracle =
      { attempts := 4, delays := [0, 2, 4], delivered := none } := by
  simp [sessionGet, retryTotal, sessionGetAux, h, getBackoffTime, backoffFactor]

/-- Witness for C4: the all-503 oracle satisfies the hypothesis. -/
theorem retry_four_attempts_witness :
    (∀ i : Nat, ((fun _ => Attempt.resp 503) i).isRetryable = true) ∧
    sessionGet (fun _ => Attempt.resp 503) =
      { attempts := 4, delays := [0, 2, 4], delivered := none } :=
  ⟨fun _ => rfl, retry_four_attempts _ (fun _ => rfl)⟩

/-! ## Effective start date and watermark loading -/

/-- C7: in incremental mode a stored watermark state is the effective
start, overriding any configured start date — two runs differing only in
the configured start behave identically when a watermark exists; with no
stored watermark the configured start is used. -/
theorem effective_start_incremental (w : Watermark) (cfg cfg2 endDate : Nat)
    (server : Nat → Nat → Nat → PageResult) (fuel : Nat) :
    effectiveStart true (some w) cfg = w.lastExportDate ∧
    effectiveStart true none cfg = cfg ∧
    exportRun true (some w) cfg endDate server fuel =
      exportRun true (some w) cfg2 endDate server fuel :=
  ⟨rfl, rfl, rfl⟩

/-- C10: a state file that exists but cannot be read or parsed loads as
`none`, exactly like a missing state file, so an incremental run falls
back to the configured start date and behaves as a full export. -/
theorem unreadable_state_falls_back (cfg endDate : Nat)
    (server : Nat → Nat → Nat → PageResult) (fuel : Nat) :
    get_last_export_info StateFile.unreadable = none ∧
    get_last_export_info StateFile.missing = none ∧
    effectiveStart true (get_last_export_info StateFile.unreadable) cfg = cfg ∧
    exportRun true (get_last_export_info StateFile.unreadable) cfg endDate server fuel =
      exportRun true (get_last_export_info StateFile.missing) cfg endDate server fuel :=
  ⟨rfl, rfl, rfl, rfl⟩

/-! ## Zero-record runs -/

theorem pageLoop_bufBound (server : Nat → Nat → Nat → PageResult) (ws we : Nat) :
    ∀ (fuel p : Nat) (st st1 : ExportState), BufBound st →
      pageLoop server ws we fuel p st = some st1 → BufBound st1 := by
  intro fuel
  induction fuel with
  | zero =>
    intro p st st1 _ h
    simp [pageLoop] at h
  | succ n ih =>
    intro p st st1 hb h
    obtain ⟨hb1, hb2⟩ := hb
    have hcs : chunkSize = 5000 := rfl
    simp only [pageLoop] at h
    cases hsrv : server ws we p with
    | ok issues =>
      simp only [hsrv] at h
      split at h
      next hch =>
        rw [List.length_append] at hch
        split at h
        next e hwc =>
          cases h
          constructor
          · show (st.buffer ++ issues).length ≤ st.total + issues.length
            rw [List.length_append]; omega
          · intro h0
            have h0' : st.total + issues.length = 0 := h0
            exact hb2 (by omega)
        next f hwc =>
          split at h
          next hps =>
            cases h
            refine ⟨Nat.zero_le _, fun h0 => ?_⟩
            have h0' : st.total + issues.length = 0 := h0
            exact absurd h0' (by omega)
          next hps =>
            refine ih (p + 1) _ st1 ⟨Nat.zero_le _, fun h0 => ?_⟩ h
            have h0' : st.total + issues.length = 0 := h0
            exact absurd h0' (by omega)
      next hch =>
        split at h
        next hps =>
          cases h
          constructor
          · show (st.buffer ++ issues).length ≤ st.total + issues.length
            rw [List.length_append]; omega
          · intro h0
            have h0' : st.total + issues.length = 0 := h0
            exact hb2 (by omega)
        next hps =>
          refine ih (p + 1) _ st1 ⟨?_, fun h0 => ?_⟩ h
          · show (st.buffer ++ issues).length ≤ st.total + issues.length
            rw [List.length_append]; omega
          · have h0' : st.total + issues.length = 0 := h0
            exact hb2 (by omega)
    | badJson => simp only [hsrv] at h; cases h; exact ⟨hb1, hb2⟩
    | httpError c => simp only [hsrv] at h; cases h; exact ⟨hb1, hb2⟩
    | timeout => simp only [hsrv] at h; cases h; exact ⟨hb1, hb2⟩
    | connError => simp only [hsrv] at h; cases h; exact ⟨hb1, hb2⟩
    | raised => simp only [hsrv] at h; cases h; exact ⟨hb1, hb2⟩

theorem windowsLoop_bufBound (server : Nat → Nat → Nat → PageResult) (fuel : Nat) :
    ∀ (ws : List (Nat × Nat)) (st st1 : ExportState), BufBound st →
      windowsLoop server fuel ws st = some st1 → BufBound st1 := by
  intro ws
  induction ws with
  | nil =>
    intro st st1 hb h
    simp only [windowsLoop] at h
    cases h
    exact hb
  | cons w rest ih =>
    intro st st1 hb h
    rcases w with ⟨a, b⟩
    simp only [windowsLoop] at h
    cases hp : pageLoop server a b fuel 1 st with
    | none => rw [hp] at h; cases h
    | some st2 =>
      rw [hp] at h
      exact ih st2 st1 (pageLoop_bufBound server a b fuel 1 st st2 hb hp) h

/-- C9: a run that fetches zero records in total creates no output file —
not even a header row — and saves no watermark (in particular in
incremental mode), while still returning a result rather than raising. -/
theorem zero_records_no_file_no_watermark (incremental : Bool)
    (lastInfo : Option Watermark) (cfg endDate : Nat)
    (server : Nat → Nat → Nat → PageResult) (fuel : Nat) (o : Outcome)
    (h : exportRun incremental lastInfo cfg endDate server fuel = some o)
    (h0 : o.count = 0) :
    o.fileContents = none ∧ o.savedWatermark = none := by
  simp only [exportRun] at h
  split at h
  · split at h
    next hwl => exact absurd h (by simp)
    next st hwl =>
      have hbb : BufBound st :=
        windowsLoop_bufBound server fuel _ initState st
          ⟨Nat.le_refl 0, fun _ => rfl⟩ hwl
      by_cases hemp : st.buffer.isEmpty = true
      · rw [if_pos hemp] at h
        cases h
        have ht : st.total = 0 := h0
        exact ⟨hbb.2 ht, by simp [watermarkAfter, ht]⟩
      · rw [if_neg hemp] at h
        cases hwc : writeChunk st.fileContents st.mode st.buffer with
        | error e =>
          rw [hwc] at h
          cases h
          have ht : st.total = 0 := h0
          have hnil : st.buffer = [] :=
            List.eq_nil_of_length_eq_zero (by have := hbb.1; omega)
          simp [hnil] at hemp
        | ok f =>
          rw [hwc] at h
          cases h
          have ht : st.total = 0 := h0
          have hnil : st.buffer = [] :=
            List.eq_nil_of_length_eq_zero (by have := hbb.1; omega)
          simp [hnil] at hemp
  · cases h
    exact ⟨rfl, rfl⟩

/-- Witness for C9: a run whose pages all return empty issue lists. -/
theorem zero_records_witness :
    exportRun true none 0 40 (fun _ _ _ => PageResult.ok []) 2 =
      some { status := Status.success, count := 0, fileContents := none,
             savedWatermark := none, fetched := [],
             requests := [(0, 1), (30, 1)] } ∧
    ({ status := Status.success, count := 0, fileContents := none,
       savedWatermark := none, fetched := [],
       requests := [(0, 1), (30, 1)] } : Outcome).count = 0 ∧
    (({ status := Status.success, count := 0, fileContents := none,
        savedWatermark := none, fetched := [],
        requests := [(0, 1), (30, 1)] } : Outcome).fileContents = none ∧
     ({ status := Status.success, count := 0, fileContents := none,
        savedWatermark := none, fetched := [],
        requests := [(0, 1), (30, 1)] } : Outcome).savedWatermark = none) :=
  ⟨rfl, rfl,
    zero_records_no_file_no_watermark true none 0 40 (fun _ _ _ => PageResult.ok []) 2
      { status := Status.success, count := 0, fileContents := none,
        savedWatermark := none, fetched := [],
        requests := [(0, 1), (30, 1)] } rfl rfl⟩

/-! ## Watermark saving vs. window failures -/

/-- C2 counterexample: an incremental run over `[0, 60)` whose first
window `[0, 30)` yields one issue and whose second window `[30, 60)` fails
with a connection error still returns status success and persists the
watermark `(60, 1)` — the full range end — even though a window fetch
failed: requests `(0,1)` and `(30,1)` were both issued, the second one
failing by construction of the server. -/
theorem watermark_after_failed_window_cex :
    (exportRun true none 0 60
        (fun ws _ _ => if ws = 0 then PageResult.ok [[]] else PageResult.connError)
        2).map
      (fun o => (o.status, o.savedWatermark, o.count, o.requests)) =
    some (Status.success, some (60, 1), 1, [(0, 1), (30, 1)]) := by
  decide

/-- C2 amended: in incremental mode the watermark is governed only by the
returned status and the total fetched count — whenever the run returns
(status success, which it does regardless of window-fetch failures), the
watermark is persisted as the full range end iff the total count is
positive; a failed status (inverted dates or a final-flush exception)
saves nothing.  Window fetch failures by themselves neither fail the run
nor block the watermark. -/
theorem watermark_saved_iff_count_pos (lastInfo : Option Watermark)
    (cfg endDate : Nat) (server : Nat → Nat → Nat → PageResult) (fuel : Nat)
    (o : Outcome) (h : exportRun true lastInfo cfg endDate server fuel = some o) :
    (o.status = Status.success →
      o.savedWatermark = if 0 < o.count then some (endDate, o.count) else none) ∧
    (o.status = Status.failed → o.savedWatermark = none) := by
  simp only [exportRun] at h
  split at h
  · split at h
    next hwl => exact absurd h (by simp)
    next st hwl =>
      by_cases hemp : st.buffer.isEmpty = true
      · rw [if_pos hemp] at h
        cases h
        refine ⟨fun _ => ?_, fun hf => (nomatch hf)⟩
        simp [watermarkAfter]
      · rw [if_neg hemp] at h
        cases hwc : writeChunk st.fileContents st.mode st.buffer with
        | error e =>
          rw [hwc] at h
          cases h
          exact ⟨fun hs => (nomatch hs), fun _ => rfl⟩
        | ok f =>
          rw [hwc] at h
          cases h
          refine ⟨fun _ => ?_, fun hf => (nomatch hf)⟩
          simp [watermarkAfter]
  · cases h
    exact ⟨fun hs => (nomatch hs), fun _ => rfl⟩

/-- Witness for C2: a run whose only window fails entirely still returns a
result; count 0 yields no watermark. -/
theorem watermark_saved_iff_count_pos_witness :
    exportRun true none 0 40 (fun _ _ _ => PageResult.connError) 1 =
      some { status := Status.success, count := 0, fileContents := none,
             savedWatermark := none, fetched := [],
             requests := [(0, 1), (30, 1)] } ∧
    ((({ status := Status.success, count := 0, fileContents := none,
         savedWatermark := none, fetched := [],
         requests := [(0, 1), (30, 1)] } : Outcome).status = Status.success →
      ({ status := Status.success, count := 0, fileContents := none,
         savedWatermark := none, fetched := [],
         requests := [(0, 1), (30, 1)] } : Outcome).savedWatermark =
        if 0 < ({ status := Status.success, count := 0, fileContents := none,
                  savedWatermark := none, fetched := [],
                  requests := [(0, 1), (30, 1)] } : Outcome).count
        then some (40, ({ status := Status.success, count := 0, fileContents := none,
                          savedWatermark := none, fetched := [],
                          requests := [(0, 1), (30, 1)] } : Outcome).count)
        else none) ∧
     (({ status := Status.success, count := 0, fileContents := none,
         savedWatermark := none, fetched := [],
         requests := [(0, 1), (30, 1)] } : Outcome).status = Status.failed →
      ({ status := Status.success, count := 0, fileContents := none,
         savedWatermark := none, fetched := [],
         requests := [(0, 1), (30, 1)] } : Outcome).savedWatermark = none)) :=
  ⟨rfl,
    watermark_saved_iff_count_pos none 0 40 (fun _ _ _ => PageResult.connError) 1
      { status := Status.success, count := 0, fileContents := none,
        savedWatermark := none, fetched := [],
        requests := [(0, 1), (30, 1)] } rfl⟩

/-! ## Fatal HTTP statuses -/

/-- C1 counterexample: a run over `[0, 60)` whose first window `[0, 30)`
returns HTTP 401 on its first page request still goes on to fetch window
`[30, 60)` (request `(30, 1)` is issued), picks up its one issue, and
returns status success — the export is not aborted and the outcome is not
Failed. -/
theorem fatal_status_cex :
    (exportRun false none 0 60
        (fun ws _ _ => if ws = 0 then PageResult.httpError 401 else PageResult.ok [[]])
        2).map
      (fun o => (o.status, o.count, o.requests)) =
    some (Status.success, 1, [(0, 1), (30, 1)]) := by
  decide

theorem windowsLoop_all_httpError (server : Nat → Nat → Nat → PageResult)
    (fuel : Nat) (hsrv : ∀ ws we p, server ws we p = PageResult.httpError 401) :
    ∀ (L : List (Nat × Nat)) (st : ExportState),
      windowsLoop server (fuel + 1) L st =
        some { st with requests := st.requests ++ L.map (fun w => (w.1, 1)) } := by
  intro L
  induction L with
  | nil =>
    intro st
    simp [windowsLoop]
  | cons w rest ih =>
    intro st
    rcases w with ⟨a, b⟩
    have hp : pageLoop server a b (fuel + 1) 1 st =
        some { st with requests := st.requests ++ [(a, 1)] } := by
      simp only [pageLoop, hsrv]
    simp only [windowsLoop, hp, ih, List.map_cons, List.append_assoc,
      List.singleton_append]

/-- C1 amended: a page request answered with 401, 403 or 404 is never
retried (those statuses are not in the retry forcelist), and it aborts
only the current window's page loop: the export continues through every
remaining window (page 1 of each planned window is still requested) and
the source's outcome has status success with whatever was fetched — it is
not marked Failed. -/
theorem fatal_status_skips_window_only (cfg endDate fuel : Nat)
    (h : cfg < endDate) :
    Attempt.isRetryable (Attempt.resp 401) = false ∧
    Attempt.isRetryable (Attempt.resp 403) = false ∧
    Attempt.isRetryable (Attempt.resp 404) = false ∧
    exportRun false none cfg endDate (fun _ _ _ => PageResult.httpError 401)
        (fuel + 1) =
      some { status := Status.success, count := 0, fileContents := none,
             savedWatermark := none, fetched := [],
             requests := (planWindows cfg endDate).map (fun w => (w.1, 1)) } := by
  refine ⟨rfl, rfl, rfl, ?_⟩
  have hwl := windowsLoop_all_httpError (fun _ _ _ => PageResult.httpError 401)
    fuel (fun _ _ _ => rfl) (planWindows cfg endDate) initState
  simp only [exportRun]
  rw [show effectiveStart false none cfg = cfg from rfl, if_pos h, hwl]
  simp [initState, watermarkAfter]

/-- Witness for C1 at the concrete range `[0, 45)`. -/
theorem fatal_status_skips_window_only_witness :
    0 < 45 ∧
    (Attempt.isRetryable (Attempt.resp 401) = false ∧
     Attempt.isRetryable (Attempt.resp 403) = false ∧
     Attempt.isRetryable (Attempt.resp 404) = false ∧
     exportRun false none 0 45 (fun _ _ _ => PageResult.httpError 401) (0 + 1) =
       some { status := Status.success, count := 0, fileContents := none,
              savedWatermark := none, fetched := [],
              requests := (planWindows 0 45).map (fun w => (w.1, 1)) }) :=
  ⟨by decide, fatal_status_skips_window_only 0 45 0 (by decide)⟩

/-! ## Multi-project orchestration -/

theorem dictInsert_fresh {d : List (String × SingleOutcome)} {k : String}
    (h : ∀ p ∈ d, p.1 ≠ k) (v : SingleOutcome) :
    dictInsert d k v = d ++ [(k, v)] := by
  have hc : d.any (fun p => p.1 == k) = false := by
    rw [List.any_eq_false]
    intro p hp
    simpa using h p hp
  unfold dictInsert
  rw [hc]
  simp

theorem exportProjectsLoop_spec (runner : String → ProjResult) :
    ∀ (keys : List String) (st : MultiState), keys.Nodup →
      (∀ k ∈ keys, ∀ p ∈ st.results, p.1 ≠ k) →
      exportProjectsLoop runner keys st =
        { results := st.results ++ keys.map (fun k => (k, resultOf (runner k))),
          calls := st.calls ++ keys } := by
  intro keys
  induction keys with
  | nil =>
    intro st _ _
    simp [exportProjectsLoop]
  | cons k ks ih =>
    intro st hnd hfr
    have hknotin : k ∉ ks := (List.nodup_cons.mp hnd).1
    have hfrk : ∀ p ∈ st.results, p.1 ≠ k :=
      fun p hp => hfr k (List.mem_cons_self k ks) p hp
    simp only [exportProjectsLoop]
    rw [dictInsert_fresh hfrk]
    rw [ih _ (List.Nodup.of_cons hnd) ?_]
    · simp [List.append_assoc]
    · intro k2 hk2 p hp
      rcases List.mem_append.mp hp with hp1 | hp2
      · exact hfr k2 (List.mem_cons_of_mem _ hk2) p hp1
      · rcases List.mem_singleton.mp hp2 with rfl
        intro heq
        have hk2k : k2 = k := heq.symm
        exact hknotin (hk2k ▸ hk2)

theorem summarize_go :
    ∀ (results : List (String × SingleOutcome)) (acc : Nat × Nat × Nat),
      results.foldl
        (fun acc p =>
          match p.2 with
          | .success c => (acc.1 + 1, acc.2.1, acc.2.2 + c)
          | .failedO _ => (acc.1, acc.2.1 + 1, acc.2.2)) acc =
      (acc.1 + (results.filter fun p => p.2.isSuccess).length,
       acc.2.1 + (results.filter fun p => !p.2.isSuccess).length,
       acc.2.2 + (results.map fun p => p.2.countOrZero).sum) := by
  intro results
  induction results with
  | nil => intro acc; simp
  | cons p rest ih =>
    intro acc
    rcases p with ⟨k, o⟩
    cases o with
    | success c =>
      simp only [List.foldl_cons, ih, List.filter_cons, List.map_cons,
        SingleOutcome.isSuccess, SingleOutcome.countOrZero]
      simp [Prod.ext_iff]
      omega
    | failedO m =>
      simp only [List.foldl_cons, ih, List.filter_cons, List.map_cons,
        SingleOutcome.isSuccess, SingleOutcome.countOrZero]
      simp [Prod.ext_iff]
      omega

theorem summarize_eq (results : List (String × SingleOutcome)) :
    summarize results =
      ((results.filter fun p => p.2.isSuccess).length,
       (results.filter fun p => !p.2.isSuccess).length,
       (results.map fun p => p.2.countOrZero).sum) := by
  unfold summarize
  rw [summarize_go]
  simp

/-- C8: the orchestrator processes the (distinct) project keys strictly in
input order — the call trace equals the input sequence even when some
projects raise; an exception is recorded as that project's failed outcome
(`resultOf`), every project gets an entry, and the summary reports the
number of successful and failed projects and the total issue count summed
over the successful projects only. -/
theorem orchestrator_order_and_summary (runner : String → ProjResult)
    (keys : List String) (h : keys.Nodup) :
    (exportProjectsLoop runner keys ⟨[], []⟩).calls = keys ∧
    (exportProjectsLoop runner keys ⟨[], []⟩).results =
      keys.map (fun k => (k, resultOf (runner k))) ∧
    (∀ m : String, resultOf (ProjResult.exception m) = SingleOutcome.failedO m) ∧
    summarize (exportProjectsLoop runner keys ⟨[], []⟩).results =
      (((exportProjectsLoop runner keys ⟨[], []⟩).results.filter
          (fun p => p.2.isSuccess)).length,
       ((exportProjectsLoop runner keys ⟨[], []⟩).results.filter
          (fun p => !p.2.isSuccess)).length,
       ((exportProjectsLoop runner keys ⟨[], []⟩).results.map
          (fun p => p.2.countOrZero)).sum) := by
  have hspec := exportProjectsLoop_spec runner keys ⟨[], []⟩ h
    (fun _ _ p hp => absurd hp (List.not_mem_nil p))
  rw [hspec]
  exact ⟨by simp, by simp, fun m => rfl, summarize_eq _⟩

/-- Witness for C8: two projects, the first raising, the second
succeeding with 7 issues. -/
theorem orchestrator_order_and_summary_witness :
    (["a", "b"] : List String).Nodup ∧
    ((exportProjectsLoop
        (fun k => if k = "a" then ProjResult.exception "boom"
                  else ProjResult.outcome (SingleOutcome.success 7))
        ["a", "b"] ⟨[], []⟩).calls = ["a", "b"] ∧
     (exportProjectsLoop
        (fun k => if k = "a" then ProjResult.exception "boom"
                  else ProjResult.outcome (SingleOutcome.success 7))
        ["a", "b"] ⟨[], []⟩).results =
       (["a", "b"] : List String).map
         (fun k => (k, resultOf ((fun k => if k = "a" then ProjResult.exception "boom"
                  else ProjResult.outcome (SingleOutcome.success 7)) k))) ∧
     (∀ m : String, resultOf (ProjResult.exception m) = SingleOutcome.failedO m) ∧
     summarize (exportProjectsLoop
        (fun k => if k = "a" then ProjResult.exception "boom"
                  else ProjResult.outcome (SingleOutcome.success 7))
        ["a", "b"] ⟨[], []⟩).results =
       (((exportProjectsLoop
            (fun k => if k = "a" then ProjResult.exception "boom"
                      else ProjResult.outcome (SingleOutcome.success 7))
            ["a", "b"] ⟨[], []⟩).results.filter
           (fun p => p.2.isSuccess)).length,
        ((exportProjectsLoop
            (fun k => if k = "a" then ProjResult.exception "boom"
                      else ProjResult.outcome (SingleOutcome.success 7))
            ["a", "b"] ⟨[], []⟩).results.filter
           (fun p => !p.2.isSuccess)).length,
        ((exportProjectsLoop
            (fun k => if k = "a" then ProjResult.exception "boom"
                      else ProjResult.outcome (SingleOutcome.success 7))
            ["a", "b"] ⟨[], []⟩).results.map
           (fun p => p.2.countOrZero)).sum)) :=
  ⟨by decide,
    orchestrator_order_and_summary
      (fun k => if k = "a" then ProjResult.exception "boom"
                else ProjResult.outcome (SingleOutcome.success 7))
      ["a", "b"] (by decide)⟩

/-! ## Flattening -/

theorem pyJoin_ok_of_joinable (sep : String) (v : Value) (h : joinable v = true) :
    ∃ s, pyJoin sep v = Except.ok s := by
  cases v with
  | str s => exact ⟨_, rfl⟩
  | list xs =>
    have hall : xs.all isStrV = true := h
    refine ⟨String.intercalate sep (xs.map asStr), ?_⟩
    simp only [pyJoin]
    rw [if_pos hall]
  | obj kvs => exact ⟨_, rfl⟩
  | null => simp [joinable] at h
  | bool b => simp [joinable] at h
  | int n => simp [joinable] at h

theorem pyLen_ok_of_sized (v : Value) (h : sized v = true) :
    ∃ n, pyLen v = Except.ok n := by
  cases v with
  | str s => exact ⟨_, rfl⟩
  | list xs => exact ⟨_, rfl⟩
  | obj kvs => exact ⟨_, rfl⟩
  | null => simp [sized] at h
  | bool b => simp [sized] at h
  | int n => simp [sized] at h

theorem impactPair_ok (imp : Value) (h : imp.isObj = true) :
    ∃ s, impactPair imp = Except.ok s := by
  cases imp with
  | obj kvs => exact ⟨_, rfl⟩
  | null => simp [Value.isObj] at h
  | bool b => simp [Value.isObj] at h
  | int n => simp [Value.isObj] at h
  | str s => simp [Value.isObj] at h
  | list xs => simp [Value.isObj] at h

theorem mapImpacts_ok :
    ∀ (xs : List Value), (∀ x ∈ xs, x.isObj = true) →
      ∃ ss, mapImpacts xs = Except.ok ss := by
  intro xs
  induction xs with
  | nil => intro _; exact ⟨[], rfl⟩
  | cons x xs ih =>
    intro h
    obtain ⟨s, hs⟩ := impactPair_ok x (h x (List.mem_cons_self x xs))
    obtain ⟨ss, hss⟩ := ih (fun y hy => h y (List.mem_cons_of_mem x hy))
    exact ⟨s :: ss, by simp [mapImpacts, hs, hss]⟩

theorem impactsStr_ok (v : Value) (h : impactsOk v = true) :
    ∃ s, impactsStr v = Except.ok s := by
  by_cases ht : pyTruthy v = true
  · unfold impactsOk at h
    rw [Bool.or_eq_true] at h
    cases v with
    | list xs =>
      have hall : ∀ x ∈ xs, x.isObj = true := by
        rcases h with h | h
        · rw [Bool.not_eq_true'] at h
          rw [h] at ht
          exact absurd ht (by decide)
        · simpa using h
      obtain ⟨ss, hss⟩ := mapImpacts_ok xs hall
      refine ⟨String.intercalate "; " ss, ?_⟩
      simp [impactsStr, ht, pyIter, hss]
    | null => exact absurd ht (by decide)
    | bool b =>
      rcases h with h | h
      · rw [Bool.not_eq_true'] at h
        rw [h] at ht
        exact absurd ht (by decide)
      · simp at h
    | int n =>
      rcases h with h | h
      · rw [Bool.not_eq_true'] at h
        rw [h] at ht
        exact absurd ht (by decide)
      · simp at h
    | str s =>
      rcases h with h | h
      · rw [Bool.not_eq_true'] at h
        rw [h] at ht
        exact absurd ht (by decide)
      · simp at h
    | obj kvs =>
      rcases h with h | h
      · rw [Bool.not_eq_true'] at h
        rw [h] at ht
        exact absurd ht (by decide)
      · simp at h
  · exact ⟨"", by simp [impactsStr, ht]⟩

theorem pyJoin_strList (sep : String) (ss : List String) :
    pyJoin sep (Value.list (ss.map Value.str)) =
      Except.ok (String.intercalate sep ss) := by
  have hmap : (ss.map Value.str).map asStr = ss := by
    induction ss with
    | nil => rfl
    | cons s rest ih =>
      simp only [List.map_cons]
      rw [ih]
      rfl
  have hall : (ss.map Value.str).all isStrV = true := by
    induction ss with
    | nil => rfl
    | cons s rest ih => simp [isStrV, ih]
  simp only [pyJoin]
  rw [if_pos hall, hmap]

theorem mapImpacts_pairs (ps : List (String × String)) :
    mapImpacts (ps.map fun p => Value.obj
      [("softwareQuality", Value.str p.1), ("severity", Value.str p.2)]) =
      Except.ok (ps.map fun p => p.1 ++ ":" ++ p.2) := by
  induction ps with
  | nil => rfl
  | cons p rest ih =>
    have hip : impactPair (Value.obj
        [("softwareQuality", Value.str p.1), ("severity", Value.str p.2)]) =
        Except.ok (p.1 ++ ":" ++ p.2) := rfl
    simp only [List.map_cons, mapImpacts, hip, ih]

/-- C6 counterexample: `flatten` is not total on arbitrary key-value maps —
the record binding `tags` to the integer 0 makes `','.join(issue.get('tags',
[]))` raise `TypeError`, so `flatten_issue` fails. -/
theorem flatten_ill_shaped_cex :
    flatten_issue [("tags", Value.int 0)] =
      Except.error "TypeError: can only join an iterable" := rfl

/-- C6 amended: for every record whose optional fields, where present,
have the shapes the code expects (joinable tags/transitions/actions, sized
comments/flows, impacts a list of maps or falsy) — in particular for the
empty record — `flatten_issue` returns without failing a row with the
fixed column list; absent scalar fields default to the empty string;
textRange absent or not a map yields empty position columns; tags (and
transitions, actions) given as string lists are comma-joined; comments and
flows given as lists are replaced by their element counts; and impacts
given as a list of quality/severity maps renders as a semicolon-separated
list of `quality:severity` pairs. -/
theorem flatten_wellShaped_total (issue : Issue) (h : wellShaped issue = true) :
    ∃ r, flatten_issue issue = Except.ok r ∧
      r.map Prod.fst = flatColumns ∧
      (∀ col ∈ scalarColumns, lookupV issue col = none →
        lookupV r col = some (Value.str "")) ∧
      ((lookupV issue "textRange" = none ∨
          (pyGet issue "textRange" (Value.obj [])).isObj = false) →
        (lookupV r "startLine" = some (Value.str "") ∧
         lookupV r "endLine" = some (Value.str "") ∧
         lookupV r "startOffset" = some (Value.str "") ∧
         lookupV r "endOffset" = some (Value.str ""))) ∧
      (∀ ss : List String,
        lookupV issue "tags" = some (Value.list (ss.map Value.str)) →
        lookupV r "tags" = some (Value.str (String.intercalate "," ss))) ∧
      (∀ ss : List String,
        lookupV issue "transitions" = some (Value.list (ss.map Value.str)) →
        lookupV r "transitions" = some (Value.str (String.intercalate "," ss))) ∧
      (∀ ss : List String,
        lookupV issue "actions" = some (Value.list (ss.map Value.str)) →
        lookupV r "actions" = some (Value.str (String.intercalate "," ss))) ∧
      (∀ xs : List Value, lookupV issue "comments" = some (Value.list xs) →
        lookupV r "comments" = some (Value.int xs.length)) ∧
      (∀ xs : List Value, lookupV issue "flows" = some (Value.list xs) →
        lookupV r "flows" = some (Value.int xs.length)) ∧
      (∀ ps : List (String × String),
        lookupV issue "impacts" = some (Value.list (ps.map fun p =>
          Value.obj [("softwareQuality", Value.str p.1), ("severity", Value.str p.2)])) →
        lookupV r "impacts" = some (Value.str (String.intercalate "; "
          (ps.map fun p => p.1 ++ ":" ++ p.2)))) := by
  simp only [wellShaped, Bool.and_eq_true] at h
  obtain ⟨⟨⟨⟨⟨h1, h2⟩, h3⟩, h4⟩, h5⟩, h6⟩ := h
  obtain ⟨istr, hi⟩ := impactsStr_ok _ h6
  obtain ⟨ts, hts⟩ := pyJoin_ok_of_joinable "," _ h1
  obtain ⟨trs, htrs⟩ := pyJoin_ok_of_joinable "," _ h2
  obtain ⟨acs, hacs⟩ := pyJoin_ok_of_joinable "," _ h3
  obtain ⟨cm, hcm⟩ := pyLen_ok_of_sized _ h4
  obtain ⟨fl, hfl⟩ := pyLen_ok_of_sized _ h5
  have hflat : flatten_issue issue = Except.ok
      (buildRow issue (pyGet issue "textRange" (Value.obj []))
        istr ts trs acs cm fl) := by
    simp only [flatten_issue, hi, hts, htrs, hacs, hcm, hfl]
  refine ⟨_, hflat, rfl, ?_, ?_, ?_, ?_, ?_, ?_, ?_, ?_⟩
  · intro col hcol habs
    have hget : pyGet issue col (Value.str "") = Value.str "" := by
      simp [pyGet, habs]
    fin_cases hcol <;> simp [buildRow, lookupV, hget]
  · intro hcase
    rcases hcase with habs | hobj
    · have htr : pyGet issue "textRange" (Value.obj []) = Value.obj [] := by
        simp [pyGet, habs]
      have hcell : ∀ k : String, pyObjGetD (Value.obj []) k (Value.str "") =
          Value.str "" := fun _ => rfl
      refine ⟨?_, ?_, ?_, ?_⟩ <;>
        simp [buildRow, lookupV, htr, Value.isObj, hcell]
    · refine ⟨?_, ?_, ?_, ?_⟩ <;> simp [buildRow, lookupV, hobj]
  · intro ss hss
    have hgt : pyGet issue "tags" (Value.list []) =
        Value.list (ss.map Value.str) := by
      simp [pyGet, hss]
    rw [hgt, pyJoin_strList] at hts
    cases hts
    simp [buildRow, lookupV]
  · intro ss hss
    have hgt : pyGet issue "transitions" (Value.list []) =
        Value.list (ss.map Value.str) := by
      simp [pyGet, hss]
    rw [hgt, pyJoin_strList] at htrs
    cases htrs
    simp [buildRow, lookupV]
  · intro ss hss
    have hgt : pyGet issue "actions" (Value.list []) =
        Value.list (ss.map Value.str) := by
      simp [pyGet, hss]
    rw [hgt, pyJoin_strList] at hacs
    cases hacs
    simp [buildRow, lookupV]
  · intro xs hxs
    have hgt : pyGet issue "comments" (Value.list []) = Value.list xs := by
      simp [pyGet, hxs]
    rw [hgt] at hcm
    have : (Except.ok (xs.length : Int) : Except String Int) = Except.ok cm := hcm
    cases this
    simp [buildRow, lookupV]
  · intro xs hxs
    have hgt : pyGet issue "flows" (Value.list []) = Value.list xs := by
      simp [pyGet, hxs]
    rw [hgt] at hfl
    have : (Except.ok (xs.length : Int) : Except String Int) = Except.ok fl := hfl
    cases this
    simp [buildRow, lookupV]
  · intro ps hps
    have hgi : pyGet issue "impacts" (Value.list []) =
        Value.list (ps.map fun p =>
          Value.obj [("softwareQuality", Value.str p.1), ("severity", Value.str p.2)]) := by
      simp [pyGet, hps]
    rw [hgi] at hi
    by_cases hpse : ps = []
    · subst hpse
      simp only [List.map_nil] at hi
      have : (Except.ok "" : Except String String) = Except.ok istr := hi
      cases this
      simp only [List.map_nil]
      have hint : String.intercalate "; " ([] : List String) = "" := rfl
      rw [hint]
      simp [buildRow, lookupV]
    · have htru : pyTruthy (Value.list (ps.map fun p =>
          Value.obj [("softwareQuality", Value.str p.1), ("severity", Value.str p.2)])) = true := by
        simp [pyTruthy, hpse]
      simp only [impactsStr] at hi
      rw [if_pos htru] at hi
      simp only [pyIter, mapImpacts_pairs] at hi
      cases hi
      simp [buildRow, lookupV]

/-- Witness for C6 at the empty record. -/
theorem flatten_wellShaped_total_witness :
    wellShaped [] = true ∧
    (∃ r, flatten_issue [] = Except.ok r ∧
      r.map Prod.fst = flatColumns ∧
      (∀ col ∈ scalarColumns, lookupV [] col = none →
        lookupV r col = some (Value.str "")) ∧
      ((lookupV [] "textRange" = none ∨
          (pyGet [] "textRange" (Value.obj [])).isObj = false) →
        (lookupV r "startLine" = some (Value.str "") ∧
         lookupV r "endLine" = some (Value.str "") ∧
         lookupV r "startOffset" = some (Value.str "") ∧
         lookupV r "endOffset" = some (Value.str ""))) ∧
      (∀ ss : List String,
        lookupV [] "tags" = some (Value.list (ss.map Value.str)) →
        lookupV r "tags" = some (Value.str (String.intercalate "," ss))) ∧
      (∀ ss : List String,
        lookupV [] "transitions" = some (Value.list (ss.map Value.str)) →
        lookupV r "transitions" = some (Value.str (String.intercalate "," ss))) ∧
      (∀ ss : List String,
        lookupV [] "actions" = some (Value.list (ss.map Value.str)) →
        lookupV r "actions" = some (Value.str (String.intercalate "," ss))) ∧
      (∀ xs : List Value, lookupV [] "comments" = some (Value.list xs) →
        lookupV r "comments" = some (Value.int xs.length)) ∧
      (∀ xs : List Value, lookupV [] "flows" = some (Value.list xs) →
        lookupV r "flows" = some (Value.int xs.length)) ∧
      (∀ ps : List (String × String),
        lookupV [] "impacts" = some (Value.list (ps.map fun p =>
          Value.obj [("softwareQuality", Value.str p.1), ("severity", Value.str p.2)])) →
        lookupV r "impacts" = some (Value.str (String.intercalate "; "
          (ps.map fun p => p.1 ++ ":" ++ p.2))))) :=
  ⟨rfl, flatten_wellShaped_total [] rfl⟩

/-! ## Chunked writing -/

theorem flattenAll_append {xs ys : List Issue} {a b : List FlatRow}
    (ha : flattenAll xs = Except.ok a) (hb : flattenAll ys = Except.ok b) :
    flattenAll (xs ++ ys) = Except.ok (a ++ b) := by
  induction xs generalizing a with
  | nil =>
    simp only [flattenAll] at ha
    cases ha
    simpa using hb
  | cons i rest ih =>
    rw [List.cons_append]
    simp only [flattenAll] at ha ⊢
    cases hf : flatten_issue i with
    | error e =>
      simp only [hf] at ha
      exact Except.noConfusion ha
    | ok r =>
      simp only [hf] at ha
      cases hrest : flattenAll rest with
      | error e =>
        simp only [hrest] at ha
        exact Except.noConfusion ha
      | ok rs =>
        simp only [hrest] at ha
        cases ha
        rw [ih hrest]
        rfl

theorem flattenAll_length {xs : List Issue} {a : List FlatRow}
    (ha : flattenAll xs = Except.ok a) : a.length = xs.length := by
  induction xs generalizing a with
  | nil =>
    simp only [flattenAll] at ha
    cases ha
    rfl
  | cons i rest ih =>
    simp only [flattenAll] at ha
    cases hf : flatten_issue i with
    | error e =>
      simp only [hf] at ha
      exact Except.noConfusion ha
    | ok r =>
      simp only [hf] at ha
      cases hrest : flattenAll rest with
      | error e =>
        simp only [hrest] at ha
        exact Except.noConfusion ha
      | ok rs =>
        simp only [hrest] at ha
        cases ha
        simp [ih hrest]

theorem flattenAll_ok_of_forall {xs : List Issue}
    (h : ∀ i ∈ xs, ∃ r, flatten_issue i = Except.ok r) :
    ∃ rs, flattenAll xs = Except.ok rs := by
  induction xs with
  | nil => exact ⟨[], rfl⟩
  | cons i rest ih =>
    obtain ⟨r, hr⟩ := h i (List.mem_cons_self i rest)
    obtain ⟨rs, hrs⟩ := ih (fun j hj => h j (List.mem_cons_of_mem i hj))
    exact ⟨r :: rs, by simp [flattenAll, hr, hrs]⟩

theorem writeChunk_ok {issues : List Issue} {rows : List FlatRow}
    (h : flattenAll issues = Except.ok rows) (file : Option (List Line)) (mode : Mode) :
    writeChunk file mode issues =
      Except.ok (match mode with
        | Mode.w => Line.header :: rows.map Line.row
        | Mode.a => file.getD [] ++ rows.map Line.row) := by
  simp only [writeChunk, h]
  cases mode <;> rfl

theorem pageLoop_winv (server : Nat → Nat → Nat → PageResult)
    (hok : ∀ ws we p issues, server ws we p = PageResult.ok issues →
      ∀ i ∈ issues, ∃ r, flatten_issue i = Except.ok r)
    (ws we : Nat) :
    ∀ (fuel p : Nat) (st st1 : ExportState), WInv st →
      pageLoop server ws we fuel p st = some st1 → WInv st1 := by
  intro fuel
  induction fuel with
  | zero =>
    intro p st st1 _ h
    simp [pageLoop] at h
  | succ n ih =>
    intro p st st1 hw h
    simp only [pageLoop] at h
    cases hsrv : server ws we p with
    | ok issues =>
      simp only [hsrv] at h
      obtain ⟨rsI, hrsI⟩ := flattenAll_ok_of_forall (hok ws we p issues hsrv)
      obtain ⟨htot, rsA, rsB, hA, hB, hcase⟩ := hw
      have hA2 : flattenAll (st.fetched ++ issues) = Except.ok (rsA ++ rsI) :=
        flattenAll_append hA hrsI
      have hB2 : flattenAll (st.buffer ++ issues) = Except.ok (rsB ++ rsI) :=
        flattenAll_append hB hrsI
      have htot2 : st.total + issues.length = (st.fetched ++ issues).length := by
        simp [htot]
      have hw2 : WInv { st with
          buffer := st.buffer ++ issues,
          total := st.total + issues.length,
          fetched := st.fetched ++ issues,
          requests := st.requests ++ [(ws, p)] } := by
        refine ⟨htot2, rsA ++ rsI, rsB ++ rsI, hA2, hB2, ?_⟩
        rcases hcase with ⟨hm, hf, hbf⟩ | ⟨hm, l, hf, hl⟩
        · exact Or.inl ⟨hm, hf, by rw [hbf]⟩
        · refine Or.inr ⟨hm, l, hf, ?_⟩
          rw [List.map_append, List.map_append, ← List.append_assoc, hl]
          rfl
      split at h
      next hch =>
        simp only [writeChunk_ok hB2 st.fileContents st.mode] at h
        have hw3 : WInv { st with
            buffer := [],
            mode := Mode.a,
            fileContents := some (match st.mode with
              | Mode.w => Line.header :: (rsB ++ rsI).map Line.row
              | Mode.a => st.fileContents.getD [] ++ (rsB ++ rsI).map Line.row),
            total := st.total + issues.length,
            fetched := st.fetched ++ issues,
            requests := st.requests ++ [(ws, p)] } := by
          refine ⟨htot2, rsA ++ rsI, [], hA2, rfl, Or.inr ⟨rfl, _, rfl, ?_⟩⟩
          simp only [List.map_nil, List.append_nil]
          rcases hcase with ⟨hm, hf, hbf⟩ | ⟨hm, l, hf, hl⟩
          · simp only [hm]
            have hAB : rsA = rsB := by
              rw [hbf] at hB
              rw [hA] at hB
              cases hB
              rfl
            rw [hAB]
          · simp only [hm, hf, Option.getD_some]
            rw [List.map_append, List.map_append, ← List.append_assoc, hl]
            rfl
        split at h
        next hps =>
          cases h
          exact hw3
        next hps =>
          exact ih (p + 1) _ st1 hw3 h
      next hch =>
        split at h
        next hps =>
          cases h
          exact hw2
        next hps =>
          exact ih (p + 1) _ st1 hw2 h
    | badJson => simp only [hsrv] at h; cases h; exact hw
    | httpError c => simp only [hsrv] at h; cases h; exact hw
    | timeout => simp only [hsrv] at h; cases h; exact hw
    | connError => simp only [hsrv] at h; cases h; exact hw
    | raised => simp only [hsrv] at h; cases h; exact hw

theorem windowsLoop_winv (server : Nat → Nat → Nat → PageResult)
    (hok : ∀ ws we p issues, server ws we p = PageResult.ok issues →
      ∀ i ∈ issues, ∃ r, flatten_issue i = Except.ok r)
    (fuel : Nat) :
    ∀ (ws : List (Nat × Nat)) (st st1 : ExportState), WInv st →
      windowsLoop server fuel ws st = some st1 → WInv st1 := by
  intro ws
  induction ws with
  | nil =>
    intro st st1 hw h
    simp only [windowsLoop] at h
    cases h
    exact hw
  | cons w rest ih =>
    intro st st1 hw h
    rcases w with ⟨a, b⟩
    simp only [windowsLoop] at h
    cases hp : pageLoop server a b fuel 1 st with
    | none => rw [hp] at h; cases h
    | some st2 =>
      rw [hp] at h
      exact ih st2 st1 (pageLoop_winv server hok a b fuel 1 st st2 hw hp) h

/-- C5 counterexample: an export during which zero records are appended
(the empty sequence of records, N = 0) ends with no CSV file at all — the
file does not consist of one header row followed by 0 data rows, it was
never created (`fileContents` is `none`). -/
theorem empty_export_no_header_cex :
    (exportRun false none 0 40 (fun _ _ _ => PageResult.ok []) 1).map
      (fun o => (o.count, o.fileContents.isSome, o.status)) =
    some (0, false, Status.success) := by
  decide

/-- C5 amended: for every export run in which every fetched record
flattens successfully and at least one record is appended (N ≥ 1), the
output CSV consists of exactly one header row — written by the first flush
in write mode, never repeated by the later appends — followed by exactly N
data rows, the flattened fetched records in original append order; the
sub-chunk remainder is flushed at the end.  When N = 0 no file is created
at all. -/
theorem csv_header_and_rows (incremental : Bool) (lastInfo : Option Watermark)
    (cfg endDate : Nat) (server : Nat → Nat → Nat → PageResult) (fuel : Nat)
    (o : Outcome)
    (hok : ∀ ws we p issues, server ws we p = PageResult.ok issues →
      ∀ i ∈ issues, ∃ r, flatten_issue i = Except.ok r)
    (h : exportRun incremental lastInfo cfg endDate server fuel = some o)
    (hn : 0 < o.count) :
    ∃ rows, flattenAll o.fetched = Except.ok rows ∧
      o.fileContents = some (Line.header :: rows.map Line.row) ∧
      rows.length = o.count ∧ o.status = Status.success := by
  simp only [exportRun] at h
  split at h
  · split at h
    next hwl => exact absurd h (by simp)
    next st hwl =>
      have hwinv : WInv st := windowsLoop_winv server hok fuel _ initState st
        ⟨rfl, [], [], rfl, rfl, Or.inl ⟨rfl, rfl, rfl⟩⟩ hwl
      obtain ⟨htot, rsA, rsB, hA, hB, hcase⟩ := hwinv
      by_cases hemp : st.buffer.isEmpty = true
      · rw [if_pos hemp] at h
        cases h
        have hnil : st.buffer = [] := by
          cases hb : st.buffer with
          | nil => rfl
          | cons x l => rw [hb] at hemp; simp at hemp
        rcases hcase with ⟨hm, hf, hbf⟩ | ⟨hm, l, hf, hl⟩
        · rw [hnil] at hbf
          have h0 : st.total = 0 := by rw [htot, ← hbf]; rfl
          exact absurd hn (by simp [h0])
        · rw [hnil] at hB
          have hB2 : (Except.ok ([] : List FlatRow) :
              Except String (List FlatRow)) = Except.ok rsB := hB
          cases hB2
          simp only [List.map_nil, List.append_nil] at hl
          refine ⟨rsA, hA, ?_, ?_, rfl⟩
          · rw [hf, hl]
          · rw [flattenAll_length hA, htot]
      · rw [if_neg hemp] at h
        rw [writeChunk_ok hB st.fileContents st.mode] at h
        cases h
        rcases hcase with ⟨hm, hf, hbf⟩ | ⟨hm, l, hf, hl⟩
        · have hAB : rsA = rsB := by
            rw [hbf] at hB
            rw [hA] at hB
            cases hB
            rfl
          refine ⟨rsA, hA, ?_, ?_, rfl⟩
          · simp only [hm]
            rw [hAB]
          · rw [flattenAll_length hA, htot]
        · refine ⟨rsA, hA, ?_, ?_, rfl⟩
          · simp only [hm, hf, Option.getD_some]
            rw [hl]
          · rw [flattenAll_length hA, htot]
  · cases h
    exact absurd hn (by simp)

/-- Witness for C5: a run over `[0, 40)` whose two windows each return one
record; the file is one header followed by the two flattened rows. -/
theorem csv_header_and_rows_witness :
    (∀ ws we p issues,
        (fun _ _ _ => PageResult.ok [([] : Issue)] :
          Nat → Nat → Nat → PageResult) ws we p = PageResult.ok issues →
        ∀ i ∈ issues, ∃ r, flatten_issue i = Except.ok r) ∧
    exportRun false none 0 40 (fun _ _ _ => PageResult.ok [([] : Issue)]) 2 =
      some ((exportRun false none 0 40
          (fun _ _ _ => PageResult.ok [([] : Issue)]) 2).getD
        { status := Status.failed, count := 0, fileContents := none,
          savedWatermark := none, fetched := [], requests := [] }) ∧
    0 < ((exportRun false none 0 40
          (fun _ _ _ => PageResult.ok [([] : Issue)]) 2).getD
        { status := Status.failed, count := 0, fileContents := none,
          savedWatermark := none, fetched := [], requests := [] }).count ∧
    (∃ rows, flattenAll ((exportRun false none 0 40
          (fun _ _ _ => PageResult.ok [([] : Issue)]) 2).getD
        { status := Status.failed, count := 0, fileContents := none,
          savedWatermark := none, fetched := [], requests := [] }).fetched =
        Except.ok rows ∧
      ((exportRun false none 0 40
          (fun _ _ _ => PageResult.ok [([] : Issue)]) 2).getD
        { status := Status.failed, count := 0, fileContents := none,
          savedWatermark := none, fetched := [], requests := [] }).fileContents =
        some (Line.header :: rows.map Line.row) ∧
      rows.length = ((exportRun false none 0 40
          (fun _ _ _ => PageResult.ok [([] : Issue)]) 2).getD
        { status := Status.failed, count := 0, fileContents := none,
          savedWatermark := none, fetched := [], requests := [] }).count ∧
      ((exportRun false none 0 40
          (fun _ _ _ => PageResult.ok [([] : Issue)]) 2).getD
        { status := Status.failed, count := 0, fileContents := none,
          savedWatermark := none, fetched := [], requests := [] }).status =
        Status.success) := by
  have hok : ∀ ws we p issues,
      (fun _ _ _ => PageResult.ok [([] : Issue)] :
        Nat → Nat → Nat → PageResult) ws we p = PageResult.ok issues →
      ∀ i ∈ issues, ∃ r, flatten_issue i = Except.ok r := by
    intro ws we p issues hEq i hi
    injection hEq with h1
    subst h1
    rw [List.mem_singleton] at hi
    subst hi
    exact ⟨_, rfl⟩
  exact ⟨hok, rfl, by decide,
    csv_header_and_rows false none 0 40
      (fun _ _ _ => PageResult.ok [([] : Issue)]) 2 _ hok rfl (by decide)⟩

/-- Witness for C3 at the concrete range `[0, 45)`. -/
theorem planWindows_partition_witness :
    0 < 45 ∧
    (chainFrom 0 45 (planWindows 0 45) ∧
     (∀ d : Nat, (∃ w ∈ planWindows 0 45, w.1 ≤ d ∧ d < w.2) ↔ (0 ≤ d ∧ d < 45)) ∧
     (∀ w ∈ planWindows 0 45, w.1 < w.2 ∧ w.2 - w.1 ≤ maxSpan) ∧
     List.Pairwise (fun w1 w2 => w1.2 ≤ w2.1) (planWindows 0 45)) :=
  ⟨by decide, planWindows_partition 0 45 (by decide)⟩

end SonarExport
